import Mathlib

/-!
# Verification of the authentication/session core of the contact-book backend

A shallow embedding of the authentication core: the refresh-token store
(`src/repositories/refresh_token_repo.py`), the expiry sweeper
(`main.py:cleanup_expired_tokens`), and the auth routes
(`src/routes/auth.py`, `src/routes/users.py`).

Timestamps are modelled as `Int` values (seconds); SQL `NULL`able timestamp
columns become `Option Int`.  The database tables become Lean lists of
records, SQL `SELECT ... WHERE` becomes `List.filter`, `scalars().first()`
becomes `List.head?`, and row mutation plus `commit` becomes a functional
record update.
-/

namespace ContactBook

/-- One second per unit; a day is 86400 seconds. -/
def secondsPerDay : Int := 86400

/-- `UserRole` enumeration from `src/models/user_model.py`. -/
inductive UserRole where
  | USER
  | ADMIN
deriving Repr, DecidableEq

/-- The `users` table row from `src/models/user_model.py` (`class User`). -/
structure User where
  id : Int
  username : String
  email : String
  hash_password : String
  role : UserRole
  avatar : Option String
  confirmed : Bool
deriving Repr, DecidableEq

/-- The `refresh_tokens` table row from `src/models/user_model.py`
(`class RefreshToken`): `revoked_at`, `ip_address` and `user_agent` are
nullable. -/
structure RefreshToken where
  id : Int
  user_id : Int
  token_hash : String
  created_at : Int
  expired_at : Int
  revoked_at : Option Int
  ip_address : Option String
  user_agent : Option String
deriving Repr, DecidableEq

/-! ## Refresh token repository (`src/repositories/refresh_token_repo.py`) -/

/-- `RefreshTokenRepository.get_by_token_hash`: `SELECT ... WHERE
token_hash == :h`, then `scalars().first()`. -/
def get_by_token_hash (ts : List RefreshToken) (h : String) :
    Option RefreshToken :=
  (ts.filter (fun r => r.token_hash == h)).head?

/-- The row filter of `RefreshTokenRepository.get_active_token`:
`token_hash == :h AND expired_at > :now AND revoked_at IS NULL`. -/
def isActiveRow (h : String) (now : Int) (r : RefreshToken) : Bool :=
  r.token_hash == h && now < r.expired_at && r.revoked_at.isNone

/-- `RefreshTokenRepository.get_active_token`: select rows matching
`isActiveRow` and take the first. -/
def get_active_token (ts : List RefreshToken) (h : String) (now : Int) :
    Option RefreshToken :=
  (ts.filter (isActiveRow h now)).head?

/-- `RefreshTokenRepository.save_token`: inserts a fresh row; the database
assigns `id` and `created_at` (passed in explicitly here), `revoked_at`
starts `NULL`.  Returns the new row and the grown table. -/
def save_token (ts : List RefreshToken) (newId user_id : Int)
    (token_hash : String) (expired_at created_at : Int)
    (ip_address user_agent : Option String) :
    RefreshToken × List RefreshToken :=
  let r : RefreshToken :=
    { id := newId, user_id := user_id, token_hash := token_hash,
      created_at := created_at, expired_at := expired_at,
      revoked_at := none, ip_address := ip_address,
      user_agent := user_agent }
  (r, ts ++ [r])

/-- `RefreshTokenRepository.revoke_token`: unconditionally sets
`revoked_at = datetime.now()` on the given row and commits — there is no
`revoked_at IS NULL` guard in the source. -/
def revoke_token (r : RefreshToken) (now : Int) : RefreshToken :=
  { r with revoked_at := some now }

/-! ## Expiry sweeper (`main.py:cleanup_expired_tokens`) -/

/-- The sweeper retention window, `timedelta(days=7)` in `main.py`. -/
def retention_window : Int := 7 * secondsPerDay

/-- The deletion condition of the sweeper's SQL:
`expired_at < :now OR revoked_at IS NOT NULL AND revoked_at < :cutoff`
with `cutoff = now - 7 days` (SQL `AND` binds tighter than `OR`). -/
def staleRow (now : Int) (r : RefreshToken) : Bool :=
  r.expired_at < now ||
    (match r.revoked_at with
     | some t => decide (t < now - retention_window)
     | none => false)

/-- `cleanup_expired_tokens` in `main.py`: delete every stale row, keep the
rest untouched. -/
def cleanup_expired_tokens (ts : List RefreshToken) (now : Int) :
    List RefreshToken :=
  ts.filter (fun r => !staleRow now r)

/-! ## Generic `filter`/`head?` lemmas (SQL `SELECT ... first()`) -/

/-- A first-match lookup that returns `some r` found `r` in the table and
`r` satisfies the `WHERE` clause. -/
theorem head_filter_eq_some {α : Type} {p : α → Bool} {l : List α} {r : α}
    (h : (l.filter p).head? = some r) : r ∈ l ∧ p r = true := by
  have hmem : r ∈ l.filter p := by
    cases hl : l.filter p with
    | nil => rw [hl] at h; cases h
    | cons a as =>
        rw [hl] at h
        simp only [List.head?_cons, Option.some.injEq] at h
        subst h
        exact hl ▸ List.mem_cons_self a as
  exact List.mem_filter.mp hmem

/-- A first-match lookup succeeds exactly when some row satisfies the
`WHERE` clause. -/
theorem head_filter_isSome_iff {α : Type} (p : α → Bool) (l : List α) :
    (l.filter p).head?.isSome ↔ ∃ r ∈ l, p r = true := by
  rw [List.head?_isSome]
  constructor
  · intro h
    cases hl : l.filter p with
    | nil => exact absurd hl h
    | cons a as =>
        have : a ∈ l.filter p := by rw [hl]; exact List.mem_cons_self _ _
        exact ⟨a, List.mem_filter.mp this⟩
  · rintro ⟨r, hr, hp⟩ hnil
    have : r ∈ l.filter p := List.mem_filter.mpr ⟨hr, hp⟩
    rw [hnil] at this
    cases this

/-! ## User repository (`src/repositories/users_repo.py`) -/

/-- `UserRepository.get_user_by_email`: `SELECT ... WHERE email == :e`,
`scalar_one_or_none()` (the column is `UNIQUE`; modelled as first match). -/
def get_user_by_email (users : List User) (email : String) : Option User :=
  (users.filter (fun u => u.email == email)).head?

/-- `UserRepository.update_password`: sets `hash_password` on the given user
row and commits; modelled as an update keyed by the row id. -/
def update_password (users : List User) (uid : Int) (newHash : String) :
    List User :=
  users.map (fun u => if u.id == uid then { u with hash_password := newHash }
                      else u)

/-! ## Error taxonomy (HTTP exceptions raised by the routes / services) -/

/-- Typed errors surfaced by the auth core (spec §7); `internalError` stands
for an uncaught exception escaping the handler (HTTP 500). -/
inductive AuthError where
  | unauthorized
  | notFound
  | conflict
  | invalidToken
  | expired
  | wrongPurpose
  | internalError
deriving Repr, DecidableEq

/-! ## Auth service (`src/services/auth.py` — not present under `src/`; the
routes in `src/routes/auth.py` call it, so its operations are modelled from
the spec). -/

/-- Modelled from the spec: the process-wide signing secret (§9: "explicit
configuration value"; `src/services/auth.py` is missing). -/
def processSecret : String := "app-secret"

/-- Modelled from the spec: the Refresh Token Store is "keyed by a hash of
the token secret" (§2, §4.3); the hash function itself lives in the missing
`src/services/auth.py`.  Modelled as an injective digest. -/
def tokenHash (secret : String) : String := "sha256$" ++ secret

/-- Modelled from the spec: `Credential Hasher.hash` (§4.1; implementation
in the missing `src/services/auth.py:_hash_password`).  Salt is irrelevant
to the claims; modelled as an injective digest. -/
def hashPassword (plaintext : String) : String := "bcrypt$" ++ plaintext

/-- Modelled from the spec: access tokens are a stateless signed claim
bundle with `subject=username` (§3); issuance is in the missing
`src/services/auth.py:create_access_token`. -/
def create_access_token (username : String) : String :=
  "access$" ++ username

/-- Action token (email-confirm / password-reset): a stateless signed claim
bundle — subject email, purpose tag, expiry, signature (§3, §4.2).  Not
persisted anywhere. -/
structure ActionToken where
  email : String
  purpose : String
  exp : Int
  sig : String
deriving Repr, DecidableEq

/-- Modelled from the spec: `create_reset_token` of the missing
`src/services/auth.py` — issue an action token with purpose `reset` (§4.2
`issue_action`). -/
def create_reset_token (email : String) (now ttl : Int) : ActionToken :=
  { email := email, purpose := "reset", exp := now + ttl,
    sig := processSecret }

/-- Modelled from the spec: `decode_reset_token` of the missing
`src/services/auth.py` — §4.2 `decode_action(token, "reset")`: a pure
function of the token, the process secret and the current time, failing
with `InvalidSignature`/`Expired`/`WrongPurpose`. -/
def decode_reset_token (tok : ActionToken) (now : Int) :
    Except AuthError String :=
  if tok.sig ≠ processSecret then Except.error AuthError.invalidToken
  else if tok.exp ≤ now then Except.error AuthError.expired
  else if tok.purpose ≠ "reset" then Except.error AuthError.wrongPurpose
  else Except.ok tok.email

/-- Combined persistent state the auth routes act on: the `users` and
`refresh_tokens` tables. -/
structure AuthState where
  users : List User
  tokens : List RefreshToken
deriving Repr, DecidableEq

/-- `SELECT ... WHERE users.id == :uid` lookup used when resolving the
owner of a refresh row. -/
def get_user_by_id (users : List User) (uid : Int) : Option User :=
  (users.filter (fun u => u.id == uid)).head?

/-- Revoke the first row carrying the given hash (service-level
`revoke_refresh_token`: look up the ORM row by hash, then
`RefreshTokenRepository.revoke_token` on it). -/
def revokeFirstByHash (ts : List RefreshToken) (h : String) (now : Int) :
    List RefreshToken :=
  match ts with
  | [] => []
  | r :: rest =>
      if r.token_hash == h then revoke_token r now :: rest
      else r :: revokeFirstByHash rest h now

/-- Reuse-detection hardening (spec §4.5): revoke every still-active row of
the given user. -/
def revokeAllActiveOfUser (ts : List RefreshToken) (uid : Int) (now : Int) :
    List RefreshToken :=
  ts.map (fun r => if r.user_id == uid && r.revoked_at.isNone
                   then revoke_token r now else r)

/-- Modelled from the spec: `validate_refresh_token` of the missing
`src/services/auth.py` — §4.5 `refresh` preconditions: the presented
secret must resolve to an active row, else `Unauthorized`; "on a
revoked-row presentation, treat as possible theft: revoke all other active
refresh rows for that user". -/
def validate_refresh_token (st : AuthState) (secret : String) (now : Int) :
    Except AuthError User × AuthState :=
  let h := tokenHash secret
  match get_active_token st.tokens h now with
  | some row =>
      match get_user_by_id st.users row.user_id with
      | some u => (Except.ok u, st)
      | none => (Except.error AuthError.unauthorized, st)
  | none =>
      match get_by_token_hash st.tokens h with
      | some row =>
          if row.revoked_at.isSome then
            (Except.error AuthError.unauthorized,
             { st with
               tokens := revokeAllActiveOfUser st.tokens row.user_id now })
          else (Except.error AuthError.unauthorized, st)
      | none => (Except.error AuthError.unauthorized, st)

/-- Modelled from the spec: `create_refresh_token` of the missing
`src/services/auth.py` — persist only the hash of the freshly drawn
secret together with expiry and client metadata (§4.3 `save`); the raw
secret (`newSecret`, drawn by the caller's RNG) is returned to the client. -/
def create_refresh_token (st : AuthState) (uid : Int) (newSecret : String)
    (now ttl newId : Int) (ip ua : Option String) : String × AuthState :=
  let (_, ts) := save_token st.tokens newId uid (tokenHash newSecret)
      (now + ttl) now ip ua
  (newSecret, { st with tokens := ts })

/-! ## Auth routes (`src/routes/auth.py`) -/

/-- The `/auth/refresh` route (`src/routes/auth.py:64-85`):
validate the presented secret, issue a new access token and a new refresh
row, then revoke the presented refresh row.  `newSecret`/`newId` stand for
the RNG draw and the database-assigned row id. -/
def refreshRoute (st : AuthState) (secret : String) (now : Int)
    (newSecret : String) (ttl newId : Int) (ip ua : Option String) :
    Except AuthError (String × String) × AuthState :=
  match validate_refresh_token st secret now with
  | (Except.error e, st1) => (Except.error e, st1)
  | (Except.ok u, st1) =>
      let newAccess := create_access_token u.username
      let (newRefresh, st2) :=
        create_refresh_token st1 u.id newSecret now ttl newId ip ua
      let st3 := { st2 with
        tokens := revokeFirstByHash st2.tokens (tokenHash secret) now }
      (Except.ok (newAccess, newRefresh), st3)

/-- The `/auth/request-password-reset` route
(`src/routes/auth.py:98-113`): look the user up by email; raise 404
`"User not found"` when absent; otherwise dispatch the reset email and
return the success message. -/
def request_password_reset (users : List User) (email : String) :
    Except AuthError String :=
  match get_user_by_email users email with
  | none => Except.error AuthError.notFound
  | some _ => Except.ok "Password reset instructions sent to your email"

/-- The `/auth/reset-password` route (`src/routes/auth.py:115-128`):
decode the action token, look the user up by the decoded email (404 when
absent), hash the new password and persist it. -/
def reset_password (users : List User) (tok : ActionToken)
    (newPassword : String) (now : Int) :
    Except AuthError String × List User :=
  match decode_reset_token tok now with
  | Except.error e => (Except.error e, users)
  | Except.ok email =>
      match get_user_by_email users email with
      | none => (Except.error AuthError.notFound, users)
      | some u =>
          (Except.ok "Password has been successfully reset",
           update_password users u.id (hashPassword newPassword))

/-! ## `/users/request_email` route (`src/routes/users.py:81-108`) -/

/-- The `/users/request_email` route.  The source reads `user.confirmed`
BEFORE the `if user:` guard; when `get_user_by_email` returns `None` the
attribute access raises `AttributeError` (an unhandled HTTP 500), modelled
as `internalError`.  The later `if user:` guard is unreachable for a
missing user. -/
def request_email (users : List User) (email : String) :
    Except AuthError String :=
  match get_user_by_email users email with
  | none => Except.error AuthError.internalError
  | some u =>
      if u.confirmed then Except.ok "Your email already confirmed"
      else Except.ok "Check your email"

/-! ## Characterisations of the row predicates -/

/-- `isActiveRow` restated as a proposition: matching hash, not yet
expired, not revoked. -/
theorem isActiveRow_iff (h : String) (now : Int) (r : RefreshToken) :
    isActiveRow h now r = true ↔
      r.token_hash = h ∧ now < r.expired_at ∧ r.revoked_at = none := by
  simp [isActiveRow, Option.isNone_iff_eq_none, and_assoc]

/-- `staleRow` restated as a proposition: expired before `now`, or revoked
more than the retention window before `now`. -/
theorem staleRow_iff (now : Int) (r : RefreshToken) :
    staleRow now r = true ↔
      r.expired_at < now ∨
        ∃ t, r.revoked_at = some t ∧ t < now - retention_window := by
  cases hrv : r.revoked_at with
  | none => simp [staleRow, hrv]
  | some t => simp [staleRow, hrv]

/-! ## Demo fixtures (concrete rows and users used by witnesses and
counterexamples) -/

/-- The user of spec §8's scenario ("alice"/"alice@x.com"/"Secret123"). -/
def alice : User :=
  { id := 1, username := "alice", email := "alice@x.com",
    hash_password := hashPassword "Secret123", role := UserRole.USER,
    avatar := none, confirmed := true }

/-- An unrevoked refresh row for alice, hash of secret `s1`, expiring at
time 1000. -/
def demoRow : RefreshToken :=
  { id := 1, user_id := 1, token_hash := tokenHash "s1", created_at := 0,
    expired_at := 1000, revoked_at := none, ip_address := none,
    user_agent := none }

/-- The same refresh row, already revoked at time 5. -/
def demoRowRevoked : RefreshToken :=
  { demoRow with revoked_at := some 5 }

/-- A one-user one-row authentication state. -/
def demoState : AuthState := { users := [alice], tokens := [demoRow] }

/-- C6: `get_active_token` returns a record exactly when a row with the
given hash exists whose `expired_at` is strictly later than the current
time and whose `revoked_at` is null; any returned record is such a row.
It returns none whenever the row is absent, expired, or revoked. -/
theorem get_active_token_spec (ts : List RefreshToken) (h : String)
    (now : Int) :
    ((get_active_token ts h now).isSome ↔
      ∃ r ∈ ts, r.token_hash = h ∧ now < r.expired_at ∧ r.revoked_at = none)
    ∧ ∀ r, get_active_token ts h now = some r →
        r ∈ ts ∧ r.token_hash = h ∧ now < r.expired_at ∧
          r.revoked_at = none := by
  constructor
  · rw [get_active_token, head_filter_isSome_iff]
    constructor
    · rintro ⟨r, hr, hp⟩
      exact ⟨r, hr, (isActiveRow_iff h now r).mp hp⟩
    · rintro ⟨r, hr, hp⟩
      exact ⟨r, hr, (isActiveRow_iff h now r).mpr hp⟩
  · intro r hr
    have ⟨hmem, hp⟩ := head_filter_eq_some hr
    exact ⟨hmem, (isActiveRow_iff h now r).mp hp⟩

/-- Witness for C6 at a concrete store: `demoRow` (hash of `s1`, expiring
at 1000, unrevoked) is found at time 5. -/
theorem get_active_token_spec_witness :
    (get_active_token [demoRow] (tokenHash "s1") 5).isSome :=
  (get_active_token_spec [demoRow] (tokenHash "s1") 5).1.mpr
    ⟨demoRow, List.mem_cons_self _ _, by decide, by decide, by decide⟩

/-- C7: a sweeper run deletes exactly the rows with `expired_at < now` or
revoked more than the 7-day retention window before `now`; every other row
survives unchanged (the result is a sublist of the table). -/
theorem cleanup_expired_tokens_spec (ts : List RefreshToken) (now : Int) :
    (cleanup_expired_tokens ts now).Sublist ts
    ∧ ∀ r, r ∈ cleanup_expired_tokens ts now ↔
        r ∈ ts ∧
          ¬(r.expired_at < now ∨
            ∃ t, r.revoked_at = some t ∧ t < now - retention_window) := by
  constructor
  · exact List.filter_sublist ts
  · intro r
    rw [cleanup_expired_tokens, List.mem_filter]
    constructor
    · rintro ⟨hmem, hb⟩
      refine ⟨hmem, fun hstale => ?_⟩
      rw [Bool.not_eq_true'] at hb
      rw [← staleRow_iff now r] at hstale
      rw [hb] at hstale
      cases hstale
    · rintro ⟨hmem, hns⟩
      refine ⟨hmem, ?_⟩
      cases hsr : staleRow now r with
      | false => simp [hsr]
      | true => exact absurd ((staleRow_iff now r).mp hsr) hns

/-- C1 counterexample: with an empty user table,
`request_password_reset` at an unknown email raises 404 `NotFound`
instead of returning a success result. -/
theorem request_password_reset_unknown_email_404 :
    request_password_reset [] "ghost@example.com" =
      Except.error AuthError.notFound
    ∧ ∀ m, request_password_reset [] "ghost@example.com" ≠ Except.ok m :=
  ⟨rfl, fun _ h => Except.noConfusion h⟩

/-- C1 amended: `request_password_reset` returns the success message
exactly when a user with the email exists, and raises `NotFound` exactly
when none does — so the response does reveal whether the email is
registered. -/
theorem request_password_reset_reveals_existence (users : List User)
    (email : String) :
    (request_password_reset users email =
        Except.ok "Password reset instructions sent to your email" ↔
      (get_user_by_email users email).isSome)
    ∧ (request_password_reset users email =
        Except.error AuthError.notFound ↔
      (get_user_by_email users email).isNone) := by
  cases hu : get_user_by_email users email with
  | none => simp [request_password_reset, hu]
  | some u => simp [request_password_reset, hu]

/-- C9: the `/users/request_email` route evaluated at an email with no
matching user: the source reads `user.confirmed` before its `if user:`
guard, so the call crashes (AttributeError → HTTP 500, modelled as
`internalError`) instead of returning the generic `"Check your email"`
message. -/
theorem request_email_crashes_on_unknown_email :
    request_email [] "ghost@example.com" =
      Except.error AuthError.internalError
    ∧ request_email [] "ghost@example.com" ≠ Except.ok "Check your email" :=
  ⟨rfl, fun h => Except.noConfusion h⟩

/-- C5 counterexample: revoking a row already revoked at time 5 again at
time 10 is not a no-op — the revocation timestamp is overwritten. -/
theorem revoke_token_not_idempotent :
    demoRowRevoked.revoked_at = some 5
    ∧ (revoke_token demoRowRevoked 10).revoked_at = some 10
    ∧ revoke_token demoRowRevoked 10 ≠ demoRowRevoked := by decide

/-- C5 amended: `revoke_token` never raises but is last-write-wins, not
compare-and-set: it always stamps `revoked_at` with the current time,
overwriting any earlier revocation timestamp, and leaves every other field
unchanged. -/
theorem revoke_token_overwrites (r : RefreshToken) (t1 t2 : Int) :
    revoke_token (revoke_token r t1) t2 = revoke_token r t2
    ∧ (revoke_token r t2).revoked_at = some t2
    ∧ (revoke_token r t2).token_hash = r.token_hash
    ∧ (revoke_token r t2).expired_at = r.expired_at
    ∧ (t1 ≠ t2 →
        revoke_token (revoke_token r t1) t2 ≠ revoke_token r t1) := by
  refine ⟨rfl, rfl, rfl, rfl, fun hne heq => ?_⟩
  have : some t2 = some t1 := congrArg RefreshToken.revoked_at heq
  exact hne (Option.some.injEq _ _ ▸ this).symm

/-- Witness for C5's amended statement: double revocation at times 5 then
10 moved the timestamp. -/
theorem revoke_token_overwrites_witness :
    revoke_token (revoke_token demoRow 5) 10 ≠ revoke_token demoRow 5 :=
  (revoke_token_overwrites demoRow 5 10).2.2.2.2 (by decide)

/-- A row expired one day before the sweep (well inside the 7-day window)
and never revoked. -/
def rowRecentlyExpired : RefreshToken :=
  { id := 3, user_id := 1, token_hash := tokenHash "s3", created_at := 0,
    expired_at := 1000000 - secondsPerDay, revoked_at := none,
    ip_address := none, user_agent := none }

/-- C8 counterexample: the sweep at time 1000000 purges a row that
expired only one day earlier (less than the 7-day grace window) and was
never revoked — there is no grace window past expiry. -/
theorem sweeper_purges_within_expiry_grace :
    cleanup_expired_tokens [rowRecentlyExpired] 1000000 = []
    ∧ (1000000 : Int) - retention_window < rowRecentlyExpired.expired_at
    ∧ rowRecentlyExpired.revoked_at = none := by decide

/-- C8 amended: the grace window applies only to revocation.  A row is
purged at the first sweep after its expiry; an unexpired row survives the
sweep as long as any revocation lies within the 7-day retention window. -/
theorem cleanup_no_expiry_grace (ts : List RefreshToken) (now : Int)
    (r : RefreshToken) (hr : r ∈ ts) :
    (r.expired_at < now → r ∉ cleanup_expired_tokens ts now)
    ∧ (now ≤ r.expired_at →
        (∀ t, r.revoked_at = some t → now - retention_window ≤ t) →
        r ∈ cleanup_expired_tokens ts now) := by
  constructor
  · intro hexp hmem
    have := ((cleanup_expired_tokens_spec ts now).2 r).mp hmem
    exact this.2 (Or.inl hexp)
  · intro hexp hgrace
    refine ((cleanup_expired_tokens_spec ts now).2 r).mpr ⟨hr, ?_⟩
    rintro (hlt | ⟨t, hrt, hlt⟩)
    · exact absurd hexp (not_le.mpr hlt)
    · exact absurd hlt (not_lt.mpr (hgrace t hrt))

/-- Witness for C8's amended statement: `demoRow` (expires at 1000,
unrevoked) survives the sweep at time 5. -/
theorem cleanup_no_expiry_grace_witness :
    demoRow ∈ cleanup_expired_tokens [demoRow] 5 :=
  (cleanup_no_expiry_grace [demoRow] 5 demoRow
      (List.mem_cons_self _ _)).2 (by decide) (fun t ht => nomatch ht)

/-- C10: a freshly saved token row (hash not previously stored) has
`revoked_at` unset, and `get_active_token` finds exactly that row at every
time strictly before its expiry. -/
theorem save_token_roundtrip (ts : List RefreshToken)
    (newId uid : Int) (h : String) (expAt createdAt : Int)
    (ip ua : Option String)
    (hfresh : ∀ r ∈ ts, r.token_hash ≠ h) :
    (save_token ts newId uid h expAt createdAt ip ua).1.revoked_at = none
    ∧ ∀ t, t < expAt →
        get_active_token (save_token ts newId uid h expAt createdAt ip ua).2
          h t = some (save_token ts newId uid h expAt createdAt ip ua).1 := by
  refine ⟨rfl, fun t ht => ?_⟩
  have hnil : ts.filter (isActiveRow h t) = [] := by
    rw [List.filter_eq_nil_iff]
    intro r hr hact
    exact hfresh r hr ((isActiveRow_iff h t r).mp hact).1
  have hrow : isActiveRow h t
      (save_token ts newId uid h expAt createdAt ip ua).1 = true := by
    simp [save_token, isActiveRow, ht]
  rw [get_active_token]
  show (((ts ++ [(save_token ts newId uid h expAt createdAt ip ua).1]).filter
      (isActiveRow h t)).head?) = _
  rw [List.filter_append, hnil, List.nil_append, List.filter_cons_of_pos hrow]
  rfl

/-- Witness for C10: saving hash of `w` into an empty store and looking it
up at time 5 (before expiry 100) returns the new row. -/
theorem save_token_roundtrip_witness :
    get_active_token
        (save_token [] 1 1 (tokenHash "w") 100 0 none none).2
        (tokenHash "w") 5 =
      some (save_token [] 1 1 (tokenHash "w") 100 0 none none).1 :=
  (save_token_roundtrip [] 1 1 (tokenHash "w") 100 0 none none
      (fun r hr => absurd hr (List.not_mem_nil r))).2 5 (by decide)

/-- Updating a password changes no email, so an email lookup after
`update_password` finds the (possibly updated) user found before. -/
theorem get_user_by_email_update_password (users : List User)
    (uid : Int) (nh : String) (e : String) :
    get_user_by_email (update_password users uid nh) e =
      (get_user_by_email users e).map
        (fun u => if u.id == uid then { u with hash_password := nh }
                  else u) := by
  rw [get_user_by_email, get_user_by_email, update_password,
    List.filter_map, List.head?_map]
  have hp : ((fun u : User => u.email == e) ∘
      (fun u : User => if u.id == uid then { u with hash_password := nh }
                       else u)) = (fun u : User => u.email == e) := by
    funext u
    by_cases h : u.id = uid <;> simp [h]
  rw [hp]

/-- C4 counterexample: the same reset action token (issued at time 0 with
TTL 100) is presented twice, at times 10 and 20; both calls succeed and
the second one changes the password again — the token is not single-use. -/
theorem reset_token_reuse_succeeds :
    (reset_password [alice] (create_reset_token "alice@x.com" 0 100)
        "newPass1" 10).1 = Except.ok "Password has been successfully reset"
    ∧ (reset_password
          (reset_password [alice] (create_reset_token "alice@x.com" 0 100)
            "newPass1" 10).2
          (create_reset_token "alice@x.com" 0 100) "newPass2" 20).1 =
        Except.ok "Password has been successfully reset"
    ∧ (reset_password
          (reset_password [alice] (create_reset_token "alice@x.com" 0 100)
            "newPass1" 10).2
          (create_reset_token "alice@x.com" 0 100) "newPass2" 20).2 =
        [{ alice with hash_password := hashPassword "newPass2" }] := by
  refine ⟨rfl, rfl, rfl⟩

/-- C4 amended: the reset action token is stateless, so it stays usable
until its expiry: if a `reset_password` call with token `tok` succeeded,
then a second call with the same token at any time before `tok.exp`
also succeeds (and re-hashes the newly supplied password); only expiry
ends its validity. -/
theorem reset_password_stateless_reuse (users : List User)
    (tok : ActionToken) (p1 p2 m : String) (t1 t2 : Int)
    (h1 : (reset_password users tok p1 t1).1 = Except.ok m)
    (h2 : t2 < tok.exp) :
    (reset_password (reset_password users tok p1 t1).2 tok p2 t2).1 =
      Except.ok "Password has been successfully reset" := by
  cases hdec : decode_reset_token tok t1 with
  | error e => simp [reset_password, hdec] at h1
  | ok em =>
      have hsig : tok.sig = processSecret := by
        by_contra hs
        simp [decode_reset_token, hs] at hdec
      have hpurpose : tok.purpose = "reset" := by
        by_contra hp
        by_cases hexp : tok.exp ≤ t1 <;>
          simp [decode_reset_token, hsig, hexp, hp] at hdec
      have hem : em = tok.email := by
        by_cases hexp : tok.exp ≤ t1
        · simp [decode_reset_token, hsig, hexp, hpurpose] at hdec
        · simp [decode_reset_token, hsig, hexp, hpurpose] at hdec
          exact hdec.symm
      subst hem
      cases huser : get_user_by_email users tok.email with
      | none => simp [reset_password, hdec, huser] at h1
      | some u =>
          have hsnd : (reset_password users tok p1 t1).2 =
              update_password users u.id (hashPassword p1) := by
            simp [reset_password, hdec, huser]
          have hdec2 : decode_reset_token tok t2 = Except.ok tok.email := by
            simp [decode_reset_token, hsig, hpurpose, not_le.mpr h2]
          have huser2 : get_user_by_email
              (update_password users u.id (hashPassword p1)) tok.email =
              some (if u.id == u.id then
                { u with hash_password := hashPassword p1 } else u) := by
            rw [get_user_by_email_update_password, huser]
            rfl
          rw [hsnd]
          simp [reset_password, hdec2, huser2]

/-- Witness for C4's amended statement: alice's reset token is reused at
time 20 after a successful reset at time 10, and succeeds again. -/
theorem reset_password_stateless_reuse_witness :
    (reset_password
        (reset_password [alice] (create_reset_token "alice@x.com" 0 100)
          "pwA" 10).2
        (create_reset_token "alice@x.com" 0 100) "pwB" 20).1 =
      Except.ok "Password has been successfully reset" :=
  reset_password_stateless_reuse [alice]
    (create_reset_token "alice@x.com" 0 100) "pwA" "pwB"
    "Password has been successfully reset" 10 20 rfl (by decide)

/-! ## Rotation and reuse-detection lemmas -/

/-- Under the `token_hash UNIQUE` constraint (pairwise distinct hashes),
two table rows carrying the same hash are the same row. -/
theorem pairwise_hash_eq {ts : List RefreshToken}
    (hp : ts.Pairwise (fun a b => a.token_hash ≠ b.token_hash))
    {x y : RefreshToken} (hx : x ∈ ts) (hy : y ∈ ts)
    (hxy : x.token_hash = y.token_hash) : x = y := by
  induction ts with
  | nil => cases hx
  | cons r rest ih =>
      rw [List.pairwise_cons] at hp
      rcases List.mem_cons.mp hx with hx1 | hx1 <;>
        rcases List.mem_cons.mp hy with hy1 | hy1
      · rw [hx1, hy1]
      · subst hx1
        exact absurd hxy (hp.1 y hy1)
      · subst hy1
        exact absurd hxy.symm (hp.1 x hx1)
      · exact ih hp.2 hx1 hy1

/-- Revoking the first row of a given hash leaves every row of a different
hash in the table. -/
theorem mem_revokeFirstByHash_of_ne {x : RefreshToken}
    {ts : List RefreshToken} {h : String} {now : Int}
    (hx : x ∈ ts) (hne : x.token_hash ≠ h) :
    x ∈ revokeFirstByHash ts h now := by
  induction ts with
  | nil => cases hx
  | cons r rest ih =>
      cases hr : r.token_hash == h with
      | true =>
          simp only [revokeFirstByHash, hr, if_true]
          rcases List.mem_cons.mp hx with hx1 | hx1
          · exact absurd (hx1 ▸ beq_iff_eq.mp hr) hne
          · exact List.mem_cons_of_mem _ hx1
      | false =>
          simp only [revokeFirstByHash, hr, Bool.false_eq_true, if_false]
          rcases List.mem_cons.mp hx with hx1 | hx1
          · rw [hx1]; exact List.mem_cons_self _ _
          · exact List.mem_cons_of_mem _ (ih hx1)

/-- After revoking the first row of hash `h` in a table with pairwise
distinct hashes, every remaining row of hash `h` is revoked. -/
theorem revokeFirstByHash_all_revoked {ts : List RefreshToken}
    {h : String} {now : Int}
    (hp : ts.Pairwise (fun a b => a.token_hash ≠ b.token_hash)) :
    ∀ x ∈ revokeFirstByHash ts h now, x.token_hash = h →
      x.revoked_at.isSome := by
  induction ts with
  | nil =>
      intro x hx
      cases hx
  | cons r rest ih =>
      rw [List.pairwise_cons] at hp
      intro x hx hxh
      cases hr : r.token_hash == h with
      | true =>
          simp only [revokeFirstByHash, hr, if_true] at hx
          rcases List.mem_cons.mp hx with hx1 | hx1
          · rw [hx1]; rfl
          · exact absurd ((beq_iff_eq.mp hr).trans hxh.symm) (hp.1 x hx1)
      | false =>
          simp only [revokeFirstByHash, hr, Bool.false_eq_true, if_false] at hx
          rcases List.mem_cons.mp hx with hx1 | hx1
          · rw [hx1] at hxh
            exact absurd hxh (by simpa using hr)
          · exact ih hp.2 x hx1 hxh

/-- A hash all of whose rows are revoked never resolves through
`get_active_token`, at any time. -/
theorem get_active_none_of_all_revoked {ts : List RefreshToken}
    {h : String}
    (hrev : ∀ x ∈ ts, x.token_hash = h → x.revoked_at.isSome)
    (t : Int) : get_active_token ts h t = none := by
  rw [get_active_token, List.head?_eq_none_iff, List.filter_eq_nil_iff]
  intro x hx hact
  have ⟨h1, _, h3⟩ := (isActiveRow_iff h t x).mp hact
  have := hrev x hx h1
  rw [h3] at this
  cases this

/-- When the presented secret resolves to no active row, the refresh route
fails `Unauthorized` (whatever the reuse-detection branch does to the
state). -/
theorem refresh_unauthorized_of_no_active (st : AuthState)
    (secret : String) (now : Int) (ns : String) (ttl nid : Int)
    (ip ua : Option String)
    (hna : get_active_token st.tokens (tokenHash secret) now = none) :
    (refreshRoute st secret now ns ttl nid ip ua).1 =
      Except.error AuthError.unauthorized := by
  cases hby : get_by_token_hash st.tokens (tokenHash secret) with
  | none => simp [refreshRoute, validate_refresh_token, hna, hby]
  | some row =>
      cases hrv : row.revoked_at.isSome with
      | true => simp [refreshRoute, validate_refresh_token, hna, hby, hrv]
      | false => simp [refreshRoute, validate_refresh_token, hna, hby, hrv]

/-- After reuse-detection revocation, every row of the affected user is
revoked. -/
theorem revokeAllActiveOfUser_all_revoked (ts : List RefreshToken)
    (uid : Int) (now : Int) :
    ∀ x ∈ revokeAllActiveOfUser ts uid now, x.user_id = uid →
      x.revoked_at.isSome := by
  intro x hx hxu
  rw [revokeAllActiveOfUser, List.mem_map] at hx
  obtain ⟨y, hy, rfl⟩ := hx
  cases hc : (y.user_id == uid && y.revoked_at.isNone) with
  | true => simp [hc, revoke_token]
  | false =>
      simp only [hc, Bool.false_eq_true, if_false] at hxu ⊢
      simp only [hxu, beq_self_eq_true, Bool.true_and] at hc
      cases hrv : y.revoked_at with
      | none => rw [hrv] at hc; cases hc
      | some t => rfl

/-- The row inserted by the refresh rotation (the row of
`save_token` as called by `create_refresh_token`). -/
def newTokenRow (uid : Int) (ns : String) (now ttl nid : Int)
    (ip ua : Option String) : RefreshToken :=
  { id := nid, user_id := uid, token_hash := tokenHash ns,
    created_at := now, expired_at := now + ttl, revoked_at := none,
    ip_address := ip, user_agent := ua }

/-- C3: presenting a refresh secret whose (unique-hash) row is already
revoked fails `Unauthorized`, revokes every active refresh row of that
user (reuse-detection hardening), and inserts no new row. -/
theorem refresh_reuse_detection (st : AuthState) (secret : String)
    (now : Int) (ns : String) (ttl nid : Int) (ip ua : Option String)
    (row : RefreshToken) (t0 : Int)
    (hp : st.tokens.Pairwise (fun a b => a.token_hash ≠ b.token_hash))
    (hrow : row ∈ st.tokens)
    (hhash : row.token_hash = tokenHash secret)
    (hrev : row.revoked_at = some t0) :
    (refreshRoute st secret now ns ttl nid ip ua).1 =
      Except.error AuthError.unauthorized
    ∧ (refreshRoute st secret now ns ttl nid ip ua).2.tokens =
        revokeAllActiveOfUser st.tokens row.user_id now
    ∧ (∀ x ∈ (refreshRoute st secret now ns ttl nid ip ua).2.tokens,
        x.user_id = row.user_id → x.revoked_at.isSome)
    ∧ (refreshRoute st secret now ns ttl nid ip ua).2.tokens.length =
        st.tokens.length := by
  have hna : get_active_token st.tokens (tokenHash secret) now = none := by
    cases hA : get_active_token st.tokens (tokenHash secret) now with
    | none => rfl
    | some x =>
        exfalso
        have ⟨hxmem, hxact⟩ := head_filter_eq_some hA
        have ⟨hx1, _, hx3⟩ := (isActiveRow_iff _ _ _).mp hxact
        have hxr : x = row :=
          pairwise_hash_eq hp hxmem hrow (hx1.trans hhash.symm)
        rw [hxr, hrev] at hx3
        cases hx3
  have hby : get_by_token_hash st.tokens (tokenHash secret) = some row := by
    cases hB : get_by_token_hash st.tokens (tokenHash secret) with
    | none =>
        exfalso
        rw [get_by_token_hash, List.head?_eq_none_iff,
          List.filter_eq_nil_iff] at hB
        exact hB row hrow (by simp [hhash])
    | some z =>
        have ⟨hzmem, hzp⟩ := head_filter_eq_some hB
        have hzr : z = row :=
          pairwise_hash_eq hp hzmem hrow
            ((beq_iff_eq.mp hzp).trans hhash.symm)
        rw [hzr]
  have hrvs : row.revoked_at.isSome = true := by rw [hrev]; rfl
  have hroute : refreshRoute st secret now ns ttl nid ip ua =
      (Except.error AuthError.unauthorized,
       { st with
         tokens := revokeAllActiveOfUser st.tokens row.user_id now }) := by
    simp [refreshRoute, validate_refresh_token, hna, hby, hrvs]
  refine ⟨by rw [hroute], by rw [hroute], ?_, ?_⟩
  · intro x hx hxu
    rw [hroute] at hx
    exact revokeAllActiveOfUser_all_revoked st.tokens row.user_id now x
      hx hxu
  · rw [hroute]
    simp [revokeAllActiveOfUser]

/-- The demo state whose only refresh row is already revoked. -/
def demoRevokedState : AuthState :=
  { users := [alice], tokens := [demoRowRevoked] }

/-- Witness for C3: presenting secret `s1` against its already-revoked
row fails `Unauthorized`. -/
theorem refresh_reuse_detection_witness :
    (refreshRoute demoRevokedState "s1" 10 "s2" 100 2 none none).1 =
      Except.error AuthError.unauthorized :=
  (refresh_reuse_detection demoRevokedState "s1" 10 "s2" 100 2 none none
      demoRowRevoked 5 (List.pairwise_singleton _ _)
      (List.mem_cons_self _ _) rfl rfl).1

/-- C2: refresh rotation is single-use (sequentially).  After a successful
refresh presenting secret `secret` (unique hashes in the table, fresh new
secret, as the `token_hash UNIQUE` constraint guarantees): the presented
row no longer resolves through `get_active_token` at any time, a
subsequent refresh with `secret` fails `Unauthorized`, and the newly
issued refresh secret resolves to an active row at every time before its
expiry `now + ttl` (the new access token being a stateless function of the
user, the new pair is valid). -/
theorem refresh_rotation_single_use (st : AuthState)
    (secret : String) (now : Int) (ns : String) (ttl nid : Int)
    (ip ua : Option String) (pair : String × String) (st' : AuthState)
    (hp : st.tokens.Pairwise (fun a b => a.token_hash ≠ b.token_hash))
    (hfresh : ∀ r ∈ st.tokens, r.token_hash ≠ tokenHash ns)
    (hok : refreshRoute st secret now ns ttl nid ip ua =
      (Except.ok pair, st')) :
    (∀ t, get_active_token st'.tokens (tokenHash secret) t = none)
    ∧ (∀ t s2 ttl2 nid2 ip2 ua2,
        (refreshRoute st' secret t s2 ttl2 nid2 ip2 ua2).1 =
          Except.error AuthError.unauthorized)
    ∧ (∀ t, t < now + ttl →
        (get_active_token st'.tokens (tokenHash ns) t).isSome) := by
  cases hact : get_active_token st.tokens (tokenHash secret) now with
  | none =>
      exfalso
      have herr := refresh_unauthorized_of_no_active st secret now ns ttl
        nid ip ua hact
      rw [hok] at herr
      cases herr
  | some row =>
      cases huid : get_user_by_id st.users row.user_id with
      | none =>
          exfalso
          simp [refreshRoute, validate_refresh_token, hact, huid] at hok
      | some u =>
          have ⟨hrmem, hract⟩ := head_filter_eq_some hact
          have hrhash : row.token_hash = tokenHash secret :=
            ((isActiveRow_iff _ _ _).mp hract).1
          have hroute : refreshRoute st secret now ns ttl nid ip ua =
              (Except.ok (create_access_token u.username, ns),
               AuthState.mk st.users
                 (revokeFirstByHash
                   (st.tokens ++ [newTokenRow u.id ns now ttl nid ip ua])
                   (tokenHash secret) now)) := by
            simp [refreshRoute, validate_refresh_token,
              create_refresh_token, save_token, newTokenRow, hact, huid]
          have hst' : st'.tokens = revokeFirstByHash
              (st.tokens ++ [newTokenRow u.id ns now ttl nid ip ua])
              (tokenHash secret) now := by
            have := congrArg Prod.snd (hok.symm.trans hroute)
            exact congrArg AuthState.tokens this
          have hpw' : (st.tokens ++
              [newTokenRow u.id ns now ttl nid ip ua]).Pairwise
              (fun a b => a.token_hash ≠ b.token_hash) := by
            rw [List.pairwise_append]
            refine ⟨hp, List.pairwise_singleton _ _, ?_⟩
            intro a ha b hb
            rw [List.mem_singleton.mp hb]
            exact hfresh a ha
          have hgone : ∀ t,
              get_active_token st'.tokens (tokenHash secret) t = none := by
            intro t
            rw [hst']
            exact get_active_none_of_all_revoked
              (fun x hx hxh => revokeFirstByHash_all_revoked hpw' x hx hxh) t
          refine ⟨hgone, ?_, ?_⟩
          · intro t s2 ttl2 nid2 ip2 ua2
            exact refresh_unauthorized_of_no_active st' secret t s2 ttl2
              nid2 ip2 ua2 (hgone t)
          · intro t ht
            rw [hst', get_active_token]
            apply (head_filter_isSome_iff _ _).mpr
            refine ⟨newTokenRow u.id ns now ttl nid ip ua, ?_, ?_⟩
            · apply mem_revokeFirstByHash_of_ne
              · exact List.mem_append_right _ (List.mem_cons_self _ _)
              · show tokenHash ns ≠ tokenHash secret
                exact fun hcontra =>
                  hfresh row hrmem (hrhash.trans hcontra.symm)
            · simp [isActiveRow, newTokenRow, ht]

/-- Witness for C2: in the demo state, after refreshing with `s1`, the old
secret's hash no longer resolves (checked at time 50). -/
theorem refresh_rotation_single_use_witness :
    get_active_token
        ((refreshRoute demoState "s1" 10 "s2" 100 2 none none).2).tokens
        (tokenHash "s1") 50 = none :=
  (refresh_rotation_single_use demoState "s1" 10 "s2" 100 2 none none
      (create_access_token "alice",
        "s2")
      (refreshRoute demoState "s1" 10 "s2" 100 2 none none).2
      (List.pairwise_singleton _ _) (by decide) rfl).1 50

end ContactBook
